import Mathlib

/-!
Shallow embedding of the media-track constraints pipeline from
`src/constraints/src/constraints/track.rs`, together with spec-modelled
definitions of the collaborator modules (`constraint_set.rs`, `mandatory.rs`,
`advanced.rs`, the leaf constraint type and `MediaTrackSupportedConstraints`)
that the repository references but whose source is not available here.
The leaf constraint type is kept as a type parameter `T`, with its external
operations (`is_required`, leaf resolution, leaf serialization) passed as
function arguments, matching the spec's description of the leaf algebra as
an external collaborator specified only at its interface.
-/

namespace WebrtcRs

/-- Property names identifying media-track constraint properties
(e.g. "deviceId", "width"); the repository uses string-valued names. -/
abbrev MediaTrackProperty := String

variable {T U : Type}

/-- Modelled from the spec: `MediaTrackSupportedConstraints`
(its source file is absent from src/) — "platform capability list: set of
property names", consumed only through a set-membership test. -/
structure MediaTrackSupportedConstraints where
  props : List MediaTrackProperty

/-- Modelled from the spec: the opaque membership test
"contains(property_name) -> bool" on `MediaTrackSupportedConstraints`. -/
def MediaTrackSupportedConstraints.contains
    (s : MediaTrackSupportedConstraints) (p : MediaTrackProperty) : Bool :=
  s.props.contains p

/-- Modelled from the spec: `GenericMediaTrackConstraintSet<T>`
(`constraint_set.rs` is absent from src/) — "an ordered mapping from
property name to Constraint; keys unique", embedded as an association list. -/
structure GenericMediaTrackConstraintSet (T : Type) where
  entries : List (MediaTrackProperty × T)
  deriving DecidableEq

/-- `GenericMediaTrackConstraintSet::new`, the plain wrapping constructor
used by `basic_or_required` in track.rs. -/
def GenericMediaTrackConstraintSet.new
    (entries : List (MediaTrackProperty × T)) : GenericMediaTrackConstraintSet T :=
  ⟨entries⟩

/-- The property keys of a constraint set, in iteration order. -/
def GenericMediaTrackConstraintSet.keys
    (s : GenericMediaTrackConstraintSet T) : List MediaTrackProperty :=
  s.entries.map Prod.fst

/-- Modelled from the spec: emptiness test on a constraint set. -/
def GenericMediaTrackConstraintSet.is_empty
    (s : GenericMediaTrackConstraintSet T) : Bool :=
  s.entries.isEmpty

/-- Modelled from the spec: `GenericMandatoryMediaTrackConstraints<T>`
(`mandatory.rs` is absent from src/) — "identical shape to ConstraintSet,
distinct role". -/
abbrev GenericMandatoryMediaTrackConstraints (T : Type) :=
  GenericMediaTrackConstraintSet T

/-- Modelled from the spec: `GenericAdvancedMediaTrackConstraints<T>`
(`advanced.rs` is absent from src/) — "an ordered sequence of Constraint
Sets". -/
structure GenericAdvancedMediaTrackConstraints (T : Type) where
  sets : List (GenericMediaTrackConstraintSet T)
  deriving DecidableEq

/-- Emptiness test on the advanced sequence (used by
`should_skip_advanced` in track.rs). -/
def GenericAdvancedMediaTrackConstraints.is_empty
    (a : GenericAdvancedMediaTrackConstraints T) : Bool :=
  a.sets.isEmpty

/-- `GenericMediaTrackConstraints<T>` (track.rs lines 119-137): one
mandatory constraint set plus one advanced sequence. -/
structure GenericMediaTrackConstraints (T : Type) where
  mandatory : GenericMandatoryMediaTrackConstraints T
  advanced : GenericAdvancedMediaTrackConstraints T
  deriving DecidableEq

/-- `GenericMediaTrackConstraints::new` (track.rs lines 145-154): plain
aggregate constructor, no validation. -/
def GenericMediaTrackConstraints.new
    (mandatory : GenericMandatoryMediaTrackConstraints T)
    (advanced : GenericAdvancedMediaTrackConstraints T) :
    GenericMediaTrackConstraints T :=
  ⟨mandatory, advanced⟩

/-- `Default for GenericMediaTrackConstraints` (track.rs lines 184-191);
the defaults of the two fields are modelled from the spec: "empty mandatory
set, empty advanced sequence". -/
def GenericMediaTrackConstraints.default : GenericMediaTrackConstraints T :=
  ⟨⟨[]⟩, ⟨[]⟩⟩

/-- `GenericBoolOrMediaTrackConstraints<T>` (track.rs lines 39-47): a
boolean track selector or a constraints-based track selector. -/
inductive GenericBoolOrMediaTrackConstraints (T : Type) where
  | bool (flag : Bool)
  | constraints (c : GenericMediaTrackConstraints T)
  deriving DecidableEq

/-- `Default for GenericBoolOrMediaTrackConstraints` (track.rs lines
66-70): `Bool(false)`. -/
def GenericBoolOrMediaTrackConstraints.default :
    GenericBoolOrMediaTrackConstraints T :=
  .bool false

/-- `From<bool>` (track.rs lines 72-76). -/
def GenericBoolOrMediaTrackConstraints.from_bool (flag : Bool) :
    GenericBoolOrMediaTrackConstraints T :=
  .bool flag

/-- `From<GenericMediaTrackConstraints<T>>` (track.rs lines 78-82). -/
def GenericBoolOrMediaTrackConstraints.from_constraints
    (c : GenericMediaTrackConstraints T) :
    GenericBoolOrMediaTrackConstraints T :=
  .constraints c

/-- Rust `Clone::clone` on these plain data types is a deep copy; in a
value-semantics embedding it is the identity. -/
def GenericBoolOrMediaTrackConstraints.clone
    (v : GenericBoolOrMediaTrackConstraints T) :
    GenericBoolOrMediaTrackConstraints T :=
  v

/-- Rust `Clone::clone` on the container, identity in value semantics. -/
def GenericMediaTrackConstraints.clone
    (c : GenericMediaTrackConstraints T) : GenericMediaTrackConstraints T :=
  c

/-- `GenericBoolOrMediaTrackConstraints::into_constraints` (track.rs lines
57-63). -/
def GenericBoolOrMediaTrackConstraints.into_constraints :
    GenericBoolOrMediaTrackConstraints T →
    Option (GenericMediaTrackConstraints T)
  | .bool false => none
  | .bool true => some GenericMediaTrackConstraints.default
  | .constraints c => some c

/-- `GenericBoolOrMediaTrackConstraints::to_constraints` (track.rs lines
53-55): `self.clone().into_constraints()`. -/
def GenericBoolOrMediaTrackConstraints.to_constraints
    (v : GenericBoolOrMediaTrackConstraints T) :
    Option (GenericMediaTrackConstraints T) :=
  v.clone.into_constraints

/-- Modelled from the spec: `into_resolved` on a constraint set
(`constraint_set.rs` is absent from src/) — each leaf constraint is
resolved independently by the leaf algebra's canonical resolution
(passed here as `resolveLeaf`), leaving property keys and their order
unchanged. -/
def GenericMediaTrackConstraintSet.into_resolved (resolveLeaf : T → U)
    (s : GenericMediaTrackConstraintSet T) : GenericMediaTrackConstraintSet U :=
  ⟨s.entries.map fun pc => (pc.1, resolveLeaf pc.2)⟩

/-- Modelled from the spec: `into_resolved` on the advanced sequence
(`advanced.rs` is absent from src/) — resolves each entry, preserving the
sequence order. -/
def GenericAdvancedMediaTrackConstraints.into_resolved (resolveLeaf : T → U)
    (a : GenericAdvancedMediaTrackConstraints T) :
    GenericAdvancedMediaTrackConstraints U :=
  ⟨a.sets.map (·.into_resolved resolveLeaf)⟩

/-- `MediaTrackConstraints::into_resolved` (track.rs lines 204-214):
destructures into mandatory and advanced, resolves each independently,
reassembles. -/
def GenericMediaTrackConstraints.into_resolved (resolveLeaf : T → U)
    (c : GenericMediaTrackConstraints T) : GenericMediaTrackConstraints U :=
  ⟨c.mandatory.into_resolved resolveLeaf, c.advanced.into_resolved resolveLeaf⟩

/-- `MediaTrackConstraints::to_resolved` (track.rs lines 200-202):
`self.clone().into_resolved()`. -/
def GenericMediaTrackConstraints.to_resolved (resolveLeaf : T → U)
    (c : GenericMediaTrackConstraints T) : GenericMediaTrackConstraints U :=
  c.clone.into_resolved resolveLeaf

/-- `BoolOrMediaTrackConstraints::into_resolved` (track.rs lines 89-96):
`Bool(flag)` passes through unchanged, `Constraints(c)` resolves `c`. -/
def GenericBoolOrMediaTrackConstraints.into_resolved (resolveLeaf : T → U) :
    GenericBoolOrMediaTrackConstraints T →
    GenericBoolOrMediaTrackConstraints U
  | .bool flag => .bool flag
  | .constraints c => .constraints (c.into_resolved resolveLeaf)

/-- `BoolOrMediaTrackConstraints::to_resolved` (track.rs lines 85-87):
`self.clone().into_resolved()`. -/
def GenericBoolOrMediaTrackConstraints.to_resolved (resolveLeaf : T → U)
    (v : GenericBoolOrMediaTrackConstraints T) :
    GenericBoolOrMediaTrackConstraints U :=
  v.clone.into_resolved resolveLeaf

/-- Modelled from the spec: `into_sanitized` on a constraint set
(`constraint_set.rs` is absent from src/) — "a property absent from
SupportedConstraints is dropped from its set". -/
def GenericMediaTrackConstraintSet.into_sanitized
    (supported : MediaTrackSupportedConstraints)
    (s : GenericMediaTrackConstraintSet T) : GenericMediaTrackConstraintSet T :=
  ⟨s.entries.filter fun pc => supported.contains pc.1⟩

/-- Modelled from the spec: `into_sanitized` on the advanced sequence
(`advanced.rs` is absent from src/) — sanitizes each entry against the same
supported-constraints snapshot and drops entries that became empty. -/
def GenericAdvancedMediaTrackConstraints.into_sanitized
    (supported : MediaTrackSupportedConstraints)
    (a : GenericAdvancedMediaTrackConstraints T) :
    GenericAdvancedMediaTrackConstraints T :=
  ⟨(a.sets.map (·.into_sanitized supported)).filter fun s => !s.is_empty⟩

/-- `ResolvedMediaTrackConstraints::into_sanitized` (track.rs lines
224-235): sanitizes mandatory and advanced against the same supported set,
reassembles; the mandatory field is always kept. -/
def GenericMediaTrackConstraints.into_sanitized
    (supported : MediaTrackSupportedConstraints)
    (c : GenericMediaTrackConstraints T) : GenericMediaTrackConstraints T :=
  ⟨c.mandatory.into_sanitized supported, c.advanced.into_sanitized supported⟩

/-- `ResolvedMediaTrackConstraints::to_sanitized` (track.rs lines 217-222):
`self.clone().into_sanitized(supported_constraints)`. -/
def GenericMediaTrackConstraints.to_sanitized
    (supported : MediaTrackSupportedConstraints)
    (c : GenericMediaTrackConstraints T) : GenericMediaTrackConstraints T :=
  c.clone.into_sanitized supported

/-- `GenericMediaTrackConstraints::basic_or_required` (track.rs lines
165-181): filters the mandatory set by whether each leaf constraint's
`is_required()` equals the `required` argument; `is_required` is the leaf
algebra's predicate, passed as a function. The advanced field is not
consulted. -/
def GenericMediaTrackConstraints.basic_or_required (is_required : T → Bool)
    (c : GenericMediaTrackConstraints T) (required : Bool) :
    GenericMediaTrackConstraintSet T :=
  GenericMediaTrackConstraintSet.new
    (c.mandatory.entries.filterMap fun pc =>
      if is_required pc.2 = required then some (pc.1, pc.2) else none)

/-- `GenericMediaTrackConstraints::basic` (track.rs lines 157-159). -/
def GenericMediaTrackConstraints.basic (is_required : T → Bool)
    (c : GenericMediaTrackConstraints T) : GenericMediaTrackConstraintSet T :=
  c.basic_or_required is_required false

/-- `GenericMediaTrackConstraints::required` (track.rs lines 161-163). -/
def GenericMediaTrackConstraints.required (is_required : T → Bool)
    (c : GenericMediaTrackConstraints T) : GenericMediaTrackConstraintSet T :=
  c.basic_or_required is_required true

/-! ## Wire-format model

The serialization shape is determined by the serde attributes in track.rs
(`serde(untagged)` on the union, `serde(flatten)` on the mandatory field,
`serde(default)` and `serde(skip_serializing_if = "should_skip_advanced")`
on the advanced field) together with the spec's wire-format contract; the
serde derive machinery itself is an external library, so its effect is
modelled here over a small JSON value type. Leaf serialization is the leaf
algebra's business and is passed in as a function. -/

/-- A JSON value, as far as the wire-format contract needs one. -/
inductive Json where
  | null
  | boolV (b : Bool)
  | num (n : Int)
  | str (s : String)
  | arr (elems : List Json)
  | obj (fields : List (String × Json))

/-- The keys of the top-level object, in order; empty for non-objects. -/
def Json.topKeys : Json → List String
  | .obj fields => fields.map Prod.fst
  | _ => []

/-- Whether a JSON value is a bare boolean literal. -/
def Json.isBoolLit : Json → Bool
  | .boolV _ => true
  | _ => false

/-- Whether a JSON value is an object. -/
def Json.isObj : Json → Bool
  | .obj _ => true
  | _ => false

/-- The reserved top-level key holding the advanced sequence. -/
def advancedKey : String := "advanced"

/-- A constraint set serializes as one object field per entry, in order,
each property name mapped to the leaf's serialized form. -/
def GenericMediaTrackConstraintSet.serializeFields (leafSer : T → Json)
    (s : GenericMediaTrackConstraintSet T) : List (String × Json) :=
  s.entries.map fun pc => (pc.1, leafSer pc.2)

/-- `should_skip_advanced` (track.rs lines 139-142): the advanced field is
skipped during serialization exactly when the sequence is empty. -/
def should_skip_advanced (advanced : GenericAdvancedMediaTrackConstraints T) :
    Bool :=
  advanced.is_empty

/-- Serialization of `GenericMediaTrackConstraints` per the serde
attributes of track.rs lines 119-142: the mandatory set is flattened into
the top-level object (no nested wrapper key), and a single additional
field named by `advancedKey` holds the advanced sequence as an array of
constraint-set objects, omitted when `should_skip_advanced` holds. -/
def GenericMediaTrackConstraints.serialize (leafSer : T → Json)
    (c : GenericMediaTrackConstraints T) : Json :=
  Json.obj
    (c.mandatory.serializeFields leafSer ++
      if should_skip_advanced c.advanced then []
      else
        [(advancedKey,
          Json.arr (c.advanced.sets.map fun s =>
            Json.obj (s.serializeFields leafSer)))])

/-- Serialization of `GenericBoolOrMediaTrackConstraints` per
`serde(untagged)` (track.rs lines 39-47): the `Bool` variant is a bare
boolean literal, the `Constraints` variant is the constraints object
itself; no tag field is added. -/
def GenericBoolOrMediaTrackConstraints.serialize (leafSer : T → Json) :
    GenericBoolOrMediaTrackConstraints T → Json
  | .bool b => Json.boolV b
  | .constraints c => c.serialize leafSer

/-- Modelled from the spec: the untagged deserializer for
Bool-or-Constraints — "a manual shape-sniffing decode (try boolean literal
first, else decode as object)", the object branch delegating to the
constraints-object decoder `parseObj`. -/
def GenericBoolOrMediaTrackConstraints.deserialize
    (parseObj : Json → Option (GenericMediaTrackConstraints T)) :
    Json → Option (GenericBoolOrMediaTrackConstraints T)
  | .boolV b => some (.bool b)
  | .obj fields => (parseObj (.obj fields)).map .constraints
  | _ => none

/-- Whether a Bool-or-Constraints value is the `Bool` variant. -/
def GenericBoolOrMediaTrackConstraints.isBoolVariant :
    GenericBoolOrMediaTrackConstraints T → Bool
  | .bool _ => true
  | .constraints _ => false

/-! ## Sample concrete values used by witnesses -/

/-- A concrete property name. -/
def sampleProp1 : MediaTrackProperty := "deviceId"

/-- A second concrete property name. -/
def sampleProp2 : MediaTrackProperty := "width"

/-- A third concrete property name. -/
def sampleProp3 : MediaTrackProperty := "latency"

/-- The reserved key a deserializer would treat as the mandatory wrapper
in a nested encoding; the flat encoding must never emit it. -/
def mandatoryKey : String := "mandatory"

/-- A concrete resolved constraints value over the simplest leaf type
(`Bool`, read as the leaf's own `is_required` bit). -/
def sampleResolved : GenericMediaTrackConstraints Bool :=
  ⟨⟨[(sampleProp1, true), (sampleProp2, false)]⟩, ⟨[⟨[(sampleProp3, false)]⟩]⟩⟩

/-- A concrete supported-constraints set containing only `sampleProp1`. -/
def sampleSupported : MediaTrackSupportedConstraints :=
  ⟨[sampleProp1]⟩

/-! ## Helper lemmas -/

/-- Key membership in a constraint set is entry membership. -/
theorem mem_keys_iff (s : GenericMediaTrackConstraintSet T)
    (k : MediaTrackProperty) :
    k ∈ s.keys ↔ ∃ v, (k, v) ∈ s.entries := by
  unfold GenericMediaTrackConstraintSet.keys
  constructor
  · intro h
    rcases List.mem_map.mp h with ⟨⟨a, b⟩, hm, rfl⟩
    exact ⟨b, hm⟩
  · rintro ⟨v, hv⟩
    exact List.mem_map.mpr ⟨(k, v), hv, rfl⟩

/-- An entry survives `basic_or_required` exactly when it was in the
mandatory set and its `is_required` bit matches the `required` argument. -/
theorem mem_basic_or_required_entries (is_required : T → Bool)
    (c : GenericMediaTrackConstraints T) (r : Bool) (k : MediaTrackProperty)
    (v : T) :
    (k, v) ∈ (c.basic_or_required is_required r).entries ↔
      ((k, v) ∈ c.mandatory.entries ∧ is_required v = r) := by
  unfold GenericMediaTrackConstraints.basic_or_required
    GenericMediaTrackConstraintSet.new
  simp only [List.mem_filterMap]
  constructor
  · rintro ⟨⟨a, b⟩, hm, hf⟩
    by_cases hb : is_required b = r
    · simp only [hb, if_pos] at hf
      cases hf
      exact ⟨hm, hb⟩
    · simp [hb] at hf
  · rintro ⟨hm, hr⟩
    exact ⟨(k, v), hm, by simp [hr]⟩

/-- Key membership characterization of `basic_or_required`. -/
theorem mem_basic_or_required_keys (is_required : T → Bool)
    (c : GenericMediaTrackConstraints T) (r : Bool) (k : MediaTrackProperty) :
    k ∈ (c.basic_or_required is_required r).keys ↔
      ∃ v, (k, v) ∈ c.mandatory.entries ∧ is_required v = r := by
  simp only [mem_keys_iff, mem_basic_or_required_entries]

/-- In an association list whose keys are nodup, a key determines its
value. -/
theorem entry_unique_of_keys_nodup {l : List (MediaTrackProperty × T)}
    (h : (l.map Prod.fst).Nodup) {k : MediaTrackProperty} {a b : T}
    (ha : (k, a) ∈ l) (hb : (k, b) ∈ l) : a = b := by
  induction l with
  | nil => cases ha
  | cons hd tl ih =>
    simp only [List.map_cons, List.nodup_cons] at h
    rcases List.mem_cons.mp ha with ha1 | ha1 <;>
      rcases List.mem_cons.mp hb with hb1 | hb1
    · rw [← ha1] at hb1
      simp only [Prod.mk.injEq] at hb1
      exact hb1.2.symm
    · exfalso
      apply h.1
      rw [← ha1]
      exact List.mem_map.mpr ⟨(k, b), hb1, rfl⟩
    · exfalso
      apply h.1
      rw [← hb1]
      exact List.mem_map.mpr ⟨(k, a), ha1, rfl⟩
    · exact ih h.2 ha1 hb1

/-- An entry survives set sanitization exactly when it was present and its
key is supported. -/
theorem mem_sanitized_entries (supported : MediaTrackSupportedConstraints)
    (s : GenericMediaTrackConstraintSet T) (k : MediaTrackProperty) (v : T) :
    (k, v) ∈ (s.into_sanitized supported).entries ↔
      ((k, v) ∈ s.entries ∧ supported.contains k = true) := by
  simp [GenericMediaTrackConstraintSet.into_sanitized, List.mem_filter]

/-- Leaf resolution of a constraint set leaves the key list unchanged. -/
theorem keys_into_resolved (resolveLeaf : T → U)
    (s : GenericMediaTrackConstraintSet T) :
    (s.into_resolved resolveLeaf).keys = s.keys := by
  unfold GenericMediaTrackConstraintSet.into_resolved
    GenericMediaTrackConstraintSet.keys
  rw [List.map_map]
  rfl

/-- The top-level keys of the serialized constraints object: the mandatory
keys in order, then the reserved advanced key unless the advanced sequence
is empty. -/
theorem topKeys_serialize (leafSer : T → Json)
    (c : GenericMediaTrackConstraints T) :
    (c.serialize leafSer).topKeys =
      c.mandatory.keys ++
        if c.advanced.is_empty then [] else [advancedKey] := by
  simp only [GenericMediaTrackConstraints.serialize, Json.topKeys,
    List.map_append]
  congr 1
  · simp only [GenericMediaTrackConstraintSet.serializeFields,
      GenericMediaTrackConstraintSet.keys, List.map_map]
    rfl
  · by_cases h : c.advanced.is_empty = true
    · simp [should_skip_advanced, h]
    · simp [should_skip_advanced, h]

/-! ## Claim theorems -/

/-- C2: for every `BoolOrConstraints` value, `into_constraints` is total
(it is a Lean function) and returns `none` for `Bool(false)`, `some` of the
default `GenericTrackConstraints` for `Bool(true)`, and `some c` for
`Constraints(c)`, for any `c`. -/
theorem claim_c2_into_constraints_cases (T : Type)
    (c : GenericMediaTrackConstraints T) :
    (GenericBoolOrMediaTrackConstraints.into_constraints
        (GenericBoolOrMediaTrackConstraints.bool (T := T) false) = none) ∧
    (GenericBoolOrMediaTrackConstraints.into_constraints
        (GenericBoolOrMediaTrackConstraints.bool (T := T) true) =
      some GenericMediaTrackConstraints.default) ∧
    ((GenericBoolOrMediaTrackConstraints.constraints c).into_constraints =
      some c) :=
  ⟨rfl, rfl, rfl⟩

/-- C8: for every raw `BoolOrConstraints` value, `into_resolved` is total
(it is a Lean function), maps `Bool(flag)` to `Bool(flag)` with the flag
unchanged, and maps `Constraints(c)` to `Constraints` of the resolution of
`c`. -/
theorem claim_c8_bool_or_into_resolved_cases (T U : Type)
    (resolveLeaf : T → U) (flag : Bool) (c : GenericMediaTrackConstraints T) :
    (GenericBoolOrMediaTrackConstraints.into_resolved resolveLeaf
        (GenericBoolOrMediaTrackConstraints.bool (T := T) flag) =
      GenericBoolOrMediaTrackConstraints.bool flag) ∧
    (GenericBoolOrMediaTrackConstraints.into_resolved resolveLeaf
        (GenericBoolOrMediaTrackConstraints.constraints c) =
      GenericBoolOrMediaTrackConstraints.constraints
        (c.into_resolved resolveLeaf)) :=
  ⟨rfl, rfl⟩

/-- C9: each borrowing stage-transition variant equals the consuming one
applied to a clone of the receiver, and (clones being value copies) to the
receiver itself: `to_constraints`, `to_resolved` (both on the union and on
the container), and `to_sanitized` agree with their `into_` counterparts
for every value and every supported-constraints set. -/
theorem claim_c9_to_variants_equal_into (T U : Type) (resolveLeaf : T → U)
    (supported : MediaTrackSupportedConstraints)
    (v : GenericBoolOrMediaTrackConstraints T)
    (c : GenericMediaTrackConstraints T)
    (rc : GenericMediaTrackConstraints T) :
    (v.to_constraints = v.clone.into_constraints ∧
      v.to_constraints = v.into_constraints) ∧
    (v.to_resolved resolveLeaf = v.clone.into_resolved resolveLeaf ∧
      v.to_resolved resolveLeaf = v.into_resolved resolveLeaf) ∧
    (c.to_resolved resolveLeaf = c.clone.into_resolved resolveLeaf ∧
      c.to_resolved resolveLeaf = c.into_resolved resolveLeaf) ∧
    (rc.to_sanitized supported = rc.clone.into_sanitized supported ∧
      rc.to_sanitized supported = rc.into_sanitized supported) :=
  ⟨⟨rfl, rfl⟩, ⟨rfl, rfl⟩, ⟨rfl, rfl⟩, ⟨rfl, rfl⟩⟩

/-- C5: resolution of a raw constraints value is total (a Lean function),
destructures into the mandatory and advanced parts, resolves each
independently and reassembles them; it preserves the advanced sequence
order and leaves the key list of every constraint set (mandatory and each
advanced entry, position by position) unchanged. -/
theorem claim_c5_resolution_structure (T U : Type) (resolveLeaf : T → U)
    (c : GenericMediaTrackConstraints T) :
    (c.into_resolved resolveLeaf =
      GenericMediaTrackConstraints.new (c.mandatory.into_resolved resolveLeaf)
        (c.advanced.into_resolved resolveLeaf)) ∧
    ((c.into_resolved resolveLeaf).mandatory.keys = c.mandatory.keys) ∧
    ((c.into_resolved resolveLeaf).advanced.sets.map
        GenericMediaTrackConstraintSet.keys =
      c.advanced.sets.map GenericMediaTrackConstraintSet.keys) := by
  refine ⟨rfl, keys_into_resolved resolveLeaf c.mandatory, ?_⟩
  show ((c.advanced.sets.map (·.into_resolved resolveLeaf)).map
      GenericMediaTrackConstraintSet.keys) = _
  rw [List.map_map]
  exact List.map_congr_left fun s _ => keys_into_resolved resolveLeaf s

/-- C1: for a resolved constraints value whose mandatory keys are unique
(the constraint-set invariant), the partition of the mandatory set is
complete and disjoint: a key is in `required()` or `basic()` exactly when
it is a key of the mandatory set, and no key is in both. -/
theorem claim_c1_partition_complete_disjoint (T : Type)
    (is_required : T → Bool) (c : GenericMediaTrackConstraints T)
    (h : c.mandatory.keys.Nodup) :
    (∀ k, (k ∈ (c.required is_required).keys ∨
        k ∈ (c.basic is_required).keys) ↔ k ∈ c.mandatory.keys) ∧
    (∀ k, k ∈ (c.required is_required).keys →
      k ∉ (c.basic is_required).keys) := by
  constructor
  · intro k
    simp only [GenericMediaTrackConstraints.required,
      GenericMediaTrackConstraints.basic, mem_keys_iff,
      mem_basic_or_required_entries]
    constructor
    · rintro (⟨v, hv, _⟩ | ⟨v, hv, _⟩) <;> exact ⟨v, hv⟩
    · rintro ⟨v, hv⟩
      by_cases hr : is_required v = true
      · exact Or.inl ⟨v, hv, hr⟩
      · exact Or.inr ⟨v, hv, by simpa using hr⟩
  · intro k hreq hbas
    rw [GenericMediaTrackConstraints.required,
      mem_basic_or_required_keys] at hreq
    rw [GenericMediaTrackConstraints.basic,
      mem_basic_or_required_keys] at hbas
    rcases hreq with ⟨v, hv, hvr⟩
    rcases hbas with ⟨w, hw, hwr⟩
    have : v = w := entry_unique_of_keys_nodup h hv hw
    rw [this, hwr] at hvr
    cases hvr

/-- Witness for C1 at a concrete resolved value with two mandatory
properties (one required, one basic) and a nonempty advanced sequence. -/
theorem claim_c1_partition_complete_disjoint_witness :
    sampleResolved.mandatory.keys.Nodup ∧
    ((∀ k, (k ∈ (sampleResolved.required (fun b => b)).keys ∨
        k ∈ (sampleResolved.basic (fun b => b)).keys) ↔
        k ∈ sampleResolved.mandatory.keys) ∧
    (∀ k, k ∈ (sampleResolved.required (fun b => b)).keys →
      k ∉ (sampleResolved.basic (fun b => b)).keys)) :=
  ⟨by decide,
    claim_c1_partition_complete_disjoint Bool (fun b => b) sampleResolved
      (by decide)⟩

/-- C10: the partition preserves constraint values, not just keys: an
entry (key and constraint) is in `required()` exactly when it is in the
mandatory set with `is_required()` true, in `basic()` exactly when it is
in the mandatory set with `is_required()` false, and the advanced field
has no effect on `basic_or_required`. -/
theorem claim_c10_partition_preserves_values (T : Type)
    (is_required : T → Bool) (c : GenericMediaTrackConstraints T) :
    (∀ k v, (k, v) ∈ (c.required is_required).entries ↔
        ((k, v) ∈ c.mandatory.entries ∧ is_required v = true)) ∧
    (∀ k v, (k, v) ∈ (c.basic is_required).entries ↔
        ((k, v) ∈ c.mandatory.entries ∧ is_required v = false)) ∧
    (∀ a r, GenericMediaTrackConstraints.basic_or_required is_required
        ⟨c.mandatory, a⟩ r = c.basic_or_required is_required r) :=
  ⟨fun k v => mem_basic_or_required_entries is_required c true k v,
    fun k v => mem_basic_or_required_entries is_required c false k v,
    fun _ _ => rfl⟩

/-- Witness for C10 at a concrete entry of the concrete resolved value. -/
theorem claim_c10_partition_preserves_values_witness :
    (sampleProp1, true) ∈ (sampleResolved.required (fun b => b)).entries ↔
      ((sampleProp1, true) ∈ sampleResolved.mandatory.entries ∧
        (fun b => b) true = true) :=
  (claim_c10_partition_preserves_values Bool (fun b => b)
    sampleResolved).1 sampleProp1 true

/-- C3: sanitization drops unsupported properties from the mandatory set
and from every advanced entry, drops an advanced entry that became empty,
and retains the mandatory set as an empty set when it is emptied (the
mandatory field always survives). -/
theorem claim_c3_sanitization_drops (T : Type)
    (supported : MediaTrackSupportedConstraints)
    (c : GenericMediaTrackConstraints T) :
    (∀ k, k ∈ (c.into_sanitized supported).mandatory.keys →
        supported.contains k = true) ∧
    (∀ s, s ∈ (c.into_sanitized supported).advanced.sets →
        (s.is_empty = false ∧
          ∀ k, k ∈ s.keys → supported.contains k = true)) ∧
    ((∀ k, k ∈ c.mandatory.keys → supported.contains k = false) →
      (c.into_sanitized supported).mandatory =
        GenericMediaTrackConstraintSet.new []) := by
  refine ⟨?_, ?_, ?_⟩
  · intro k hk
    rw [mem_keys_iff] at hk
    rcases hk with ⟨v, hv⟩
    exact ((mem_sanitized_entries supported c.mandatory k v).mp hv).2
  · intro s hs
    simp only [GenericMediaTrackConstraints.into_sanitized,
      GenericAdvancedMediaTrackConstraints.into_sanitized, List.mem_filter,
      List.mem_map] at hs
    rcases hs with ⟨⟨t, ht, rfl⟩, hne⟩
    refine ⟨by simpa using hne, ?_⟩
    intro k hk
    rw [mem_keys_iff] at hk
    rcases hk with ⟨v, hv⟩
    exact ((mem_sanitized_entries supported t k v).mp hv).2
  · intro hall
    have hnil : (c.into_sanitized supported).mandatory.entries = [] := by
      simp only [GenericMediaTrackConstraints.into_sanitized,
        GenericMediaTrackConstraintSet.into_sanitized]
      rw [List.filter_eq_nil_iff]
      intro pc hpc
      have hmem : pc.1 ∈ c.mandatory.keys := List.mem_map.mpr ⟨pc, hpc, rfl⟩
      simp [hall pc.1 hmem]
    exact congrArg GenericMediaTrackConstraintSet.mk hnil

/-- Witness for C3 at a concrete resolved value whose mandatory set has a
supported and an unsupported key and whose only advanced entry has only
unsupported keys. -/
theorem claim_c3_sanitization_drops_witness :
    (∀ k,
      k ∈ (sampleResolved.into_sanitized sampleSupported).mandatory.keys →
        sampleSupported.contains k = true) ∧
    (∀ s, s ∈ (sampleResolved.into_sanitized sampleSupported).advanced.sets →
        (s.is_empty = false ∧
          ∀ k, k ∈ s.keys → sampleSupported.contains k = true)) ∧
    ((∀ k, k ∈ sampleResolved.mandatory.keys →
        sampleSupported.contains k = false) →
      (sampleResolved.into_sanitized sampleSupported).mandatory =
        GenericMediaTrackConstraintSet.new []) :=
  claim_c3_sanitization_drops Bool sampleSupported sampleResolved

/-- C4: sanitization only filters: every key of the sanitized mandatory
set was a key of the resolved mandatory set and is supported; no new keys
appear. -/
theorem claim_c4_sanitization_is_filter (T : Type)
    (supported : MediaTrackSupportedConstraints)
    (c : GenericMediaTrackConstraints T) :
    ∀ k, k ∈ (c.into_sanitized supported).mandatory.keys →
      (k ∈ c.mandatory.keys ∧ supported.contains k = true) := by
  intro k hk
  rw [mem_keys_iff] at hk
  rcases hk with ⟨v, hv⟩
  rcases (mem_sanitized_entries supported c.mandatory k v).mp hv with ⟨hm, hs⟩
  exact ⟨(mem_keys_iff c.mandatory k).mpr ⟨v, hm⟩, hs⟩

/-- Witness for C4 at a concrete surviving key of a concrete sanitized
value. -/
theorem claim_c4_sanitization_is_filter_witness :
    sampleProp1 ∈
      (sampleResolved.into_sanitized sampleSupported).mandatory.keys ∧
    (sampleProp1 ∈ sampleResolved.mandatory.keys ∧
      sampleSupported.contains sampleProp1 = true) :=
  ⟨by decide,
    claim_c4_sanitization_is_filter Bool sampleSupported sampleResolved
      sampleProp1 (by decide)⟩

/-- C6: a constraints value (whose property names avoid the reserved keys,
as the flat wire shape requires) serializes as a single flat object: the
top-level keys are exactly the mandatory keys plus one "advanced" key, no
"mandatory" key appears, the "advanced" key is present exactly when the
advanced sequence is nonempty, and the default value serializes as the
empty object. -/
theorem claim_c6_serialization_shape (T : Type) (leafSer : T → Json)
    (c : GenericMediaTrackConstraints T)
    (hadv : advancedKey ∉ c.mandatory.keys)
    (hman : mandatoryKey ∉ c.mandatory.keys) :
    ((GenericMediaTrackConstraints.default (T := T)).serialize leafSer =
      Json.obj []) ∧
    ((c.serialize leafSer).topKeys =
      c.mandatory.keys ++
        if c.advanced.is_empty then [] else [advancedKey]) ∧
    (mandatoryKey ∉ (c.serialize leafSer).topKeys) ∧
    (advancedKey ∈ (c.serialize leafSer).topKeys ↔
      c.advanced.is_empty = false) := by
  refine ⟨rfl, topKeys_serialize leafSer c, ?_, ?_⟩
  · rw [topKeys_serialize]
    intro hmem
    rcases List.mem_append.mp hmem with h1 | h1
    · exact hman h1
    · by_cases hb : c.advanced.is_empty = true
      · rw [if_pos hb] at h1
        cases h1
      · rw [if_neg hb] at h1
        simp only [List.mem_singleton] at h1
        exact absurd h1 (by decide)
  · rw [topKeys_serialize]
    by_cases hb : c.advanced.is_empty = true
    · rw [if_pos hb]
      constructor
      · intro hmem
        rw [List.append_nil] at hmem
        exact absurd hmem hadv
      · intro hfalse
        rw [hb] at hfalse
        cases hfalse
    · rw [if_neg hb]
      constructor
      · intro _
        cases hb2 : c.advanced.is_empty
        · rfl
        · exact absurd hb2 hb
      · intro _
        exact List.mem_append.mpr (Or.inr (List.mem_singleton.mpr rfl))

/-- Witness for C6 at the concrete resolved value, with leaves serialized
as boolean literals. -/
theorem claim_c6_serialization_shape_witness :
    advancedKey ∉ sampleResolved.mandatory.keys ∧
    mandatoryKey ∉ sampleResolved.mandatory.keys ∧
    (((GenericMediaTrackConstraints.default (T := Bool)).serialize
        (fun b => Json.boolV b) = Json.obj []) ∧
    ((sampleResolved.serialize (fun b => Json.boolV b)).topKeys =
      sampleResolved.mandatory.keys ++
        if sampleResolved.advanced.is_empty then [] else [advancedKey]) ∧
    (mandatoryKey ∉
      (sampleResolved.serialize (fun b => Json.boolV b)).topKeys) ∧
    (advancedKey ∈ (sampleResolved.serialize (fun b => Json.boolV b)).topKeys
      ↔ sampleResolved.advanced.is_empty = false)) :=
  ⟨by decide, by decide,
    claim_c6_serialization_shape Bool (fun b => Json.boolV b) sampleResolved
      (by decide) (by decide)⟩

/-- C7: the Bool-or-Constraints union serializes untagged: the `Bool`
variant is a bare boolean literal, the `Constraints` variant is the flat
constraints object whose top-level keys are only the data keys (no tag
field), and any successful shape-sniffing deserialization yields the
`Bool` variant exactly on boolean literals and the `Constraints` variant
only on objects. -/
theorem claim_c7_untagged_shape (T : Type) (leafSer : T → Json)
    (parseObj : Json → Option (GenericMediaTrackConstraints T)) :
    (∀ b, (GenericBoolOrMediaTrackConstraints.bool (T := T) b).serialize
        leafSer = Json.boolV b) ∧
    (∀ c, ((GenericBoolOrMediaTrackConstraints.constraints c).serialize
          leafSer).isObj = true ∧
      ((GenericBoolOrMediaTrackConstraints.constraints c).serialize
          leafSer).topKeys =
        c.mandatory.keys ++
          if c.advanced.is_empty then [] else [advancedKey]) ∧
    (∀ j v, GenericBoolOrMediaTrackConstraints.deserialize parseObj j =
        some v →
      (v.isBoolVariant = j.isBoolLit ∧
        (v.isBoolVariant = false → j.isObj = true))) := by
  refine ⟨fun b => rfl, fun c => ⟨rfl, topKeys_serialize leafSer c⟩, ?_⟩
  intro j v hj
  cases j with
  | boolV b =>
    simp only [GenericBoolOrMediaTrackConstraints.deserialize,
      Option.some.injEq] at hj
    subst hj
    exact ⟨rfl, fun hfalse => by cases hfalse⟩
  | obj fields =>
    simp only [GenericBoolOrMediaTrackConstraints.deserialize,
      Option.map_eq_some'] at hj
    rcases hj with ⟨d, hd, rfl⟩
    exact ⟨rfl, fun _ => rfl⟩
  | null => exact Option.noConfusion hj
  | num n => exact Option.noConfusion hj
  | str s => exact Option.noConfusion hj
  | arr elems => exact Option.noConfusion hj

/-- Witness for C7's shape-discrimination clause at a concrete boolean
literal input to the deserializer. -/
theorem claim_c7_untagged_shape_witness :
    (GenericBoolOrMediaTrackConstraints.deserialize
        (fun _ => (none : Option (GenericMediaTrackConstraints Bool)))
        (Json.boolV true) =
      some (GenericBoolOrMediaTrackConstraints.bool true)) ∧
    ((GenericBoolOrMediaTrackConstraints.bool (T := Bool)
          true).isBoolVariant = (Json.boolV true).isBoolLit ∧
      ((GenericBoolOrMediaTrackConstraints.bool (T := Bool)
          true).isBoolVariant = false → (Json.boolV true).isObj = true)) :=
  ⟨rfl,
    (claim_c7_untagged_shape Bool (fun b => Json.boolV b)
        (fun _ => none)).2.2 (Json.boolV true)
      (GenericBoolOrMediaTrackConstraints.bool true) rfl⟩

end WebrtcRs
